import Mathlib

/-!
Verification of the Cannoli graph-execution core


Shallow embedding of the Cannoli repository's graph object model:
the group dependency check, the repeat-group loop state machine,
edge reset/load semantics, outgoing-edge distribution, choice-node
branching, group type inference, the chat string-to-message parser,
and the logging edge.  Each definition is translated from the
TypeScript source (`src/src/models/edge.ts`,
`src/packages/cannoli-core/src/models/node.ts`, and the unnamed
source parts containing `models/group.ts` and the factory), except
where a doc comment explicitly says `Modelled from the spec:`.
-/

/-- Execution status of a graph object (`CannoliObjectStatus` in the source):
Pending → Executing → Complete | Rejected, with reset back to Pending. -/
inductive CannoliObjectStatus where
  | Pending
  | Executing
  | Complete
  | Rejected
deriving DecidableEq, Repr

/-- Coarse kind of a graph object (`CannoliObjectKind` in the source). -/
inductive CannoliObjectKind where
  | Node
  | Edge
  | Group
deriving DecidableEq, Repr

/-- Edge types (`EdgeType` in the source; the constructors used by the
claims plus representative others). -/
inductive EdgeType where
  | Write
  | Logging
  | Chat
  | SystemMessage
  | ChatResponse
  | Item
  | Choice
  | Field
  | Config
  | Variable
deriving DecidableEq, Repr

/-- Group types (`GroupType` in the source; `ForEach` corresponds to the
`ForEachGroup` class referenced by `edge.ts`). -/
inductive GroupType where
  | Basic
  | List
  | Repeat
  | NonLogic
  | ForEach
deriving DecidableEq, Repr

/-- A dependency target as the group's check observes it through the shared
`graph` mapping: the referenced object's kind and current status. -/
structure DepObj where
  kind : CannoliObjectKind
  status : CannoliObjectStatus
deriving DecidableEq, Repr

/-- One entry of a `dependencies` list: either a single object id or an
array of object ids (the OR-group form). Entries are modelled by the
`(kind, status)` snapshot of the objects they reference. -/
inductive DepEntry where
  | single (obj : DepObj)
  | ors (objs : List DepObj)
deriving DecidableEq, Repr

/-- `CannoliGroup.allEdgeDependenciesComplete` (models/group.ts):
for an array entry it requires that some member is Complete and that every
member is of edge kind; for a single entry it requires that the object is
Complete and of edge kind; any entry failing its test makes the whole
check false. -/
def CannoliGroup.allEdgeDependenciesComplete (deps : List DepEntry) : Bool :=
  deps.all fun dep =>
    match dep with
    | .ors objs =>
        objs.any (fun d => d.status == CannoliObjectStatus.Complete) &&
        objs.all (fun d => d.kind == CannoliObjectKind.Edge)
    | .single obj =>
        obj.status == CannoliObjectStatus.Complete &&
        obj.kind == CannoliObjectKind.Edge

/-- `CannoliGroup.allMembersCompleteOrRejected` (models/group.ts), over the
members' statuses. -/
def CannoliGroup.allMembersCompleteOrRejected (members : List CannoliObjectStatus) : Bool :=
  members.all fun s =>
    s == CannoliObjectStatus.Complete || s == CannoliObjectStatus.Rejected

/-- What `CannoliGroup.dependencyCompleted` does on one notification. -/
inductive GroupAction where
  | execute
  | membersFinished
  | noAction
deriving DecidableEq, Repr

/-- `CannoliGroup.dependencyCompleted` (models/group.ts): switch on the
group's status — Pending: execute iff `allEdgeDependenciesComplete`;
Executing: call `membersFinished` iff all members are complete or
rejected; otherwise do nothing. -/
def CannoliGroup.dependencyCompleted (status : CannoliObjectStatus)
    (deps : List DepEntry) (memberStatuses : List CannoliObjectStatus) : GroupAction :=
  match status with
  | .Pending =>
      if CannoliGroup.allEdgeDependenciesComplete deps then .execute else .noAction
  | .Executing =>
      if CannoliGroup.allMembersCompleteOrRejected memberStatuses then
        .membersFinished
      else .noAction
  | _ => .noAction

/-- A chat message as the edges see it (`ChatCompletionRequestMessage` /
`GenericCompletionResponse`): role, content, optional function call
(name, arguments). -/
structure ChatMessage where
  role : String
  content : String
  functionCall : Option (String × String)
deriving DecidableEq, Repr

/-- A completion request (`CreateChatCompletionRequest` /
`GenericCompletionParams`): the message history plus the remaining
properties as an ordered key→value list (values rendered as strings). -/
structure ChatRequest where
  messages : List ChatMessage
  fields : List (String × String)
deriving DecidableEq, Repr

/-- State of a `CannoliEdge` as touched by `load`, `reject` and `reset`. -/
structure CannoliEdgeState where
  isReflexive : Bool
  etype : EdgeType
  /-- whether the object is a `ChatResponseEdge` instance
  (`instanceof ChatResponseEdge` in `loadOutgoingEdges`). -/
  isChatResponse : Bool
  text : String
  addMessages : Bool
  status : CannoliObjectStatus
  content : Option String
  messages : Option (List ChatMessage)
deriving DecidableEq, Repr

/-- Modelled from the spec: the base `CannoliObject.reset`
(src/src/models/object.ts is not part of the excerpt) — §4.1: "returns
status to Pending and clears any content/partial state". -/
def CannoliObject.reset (e : CannoliEdgeState) : CannoliEdgeState :=
  { e with status := CannoliObjectStatus.Pending, content := none, messages := none }

/-- `CannoliEdge.reset` (edge.ts): calls the base reset only when the edge
is not reflexive; a reflexive edge is left untouched. -/
def CannoliEdge.reset (e : CannoliEdgeState) : CannoliEdgeState :=
  if !e.isReflexive then CannoliObject.reset e else e

/-- `reset` applied `n` times. -/
def CannoliEdge.resetIter : Nat → CannoliEdgeState → CannoliEdgeState
  | 0, e => e
  | n + 1, e => CannoliEdge.resetIter n (CannoliEdge.reset e)

/-- `CannoliEdge.load` (edge.ts): stores the content (JS falsiness: an
absent or empty string becomes null) and, when `addMessages` is set,
stores the request's message history (null when there is no request). -/
def CannoliEdge.load (e : CannoliEdgeState) (content : Option String)
    (request : Option ChatRequest) : CannoliEdgeState :=
  let newContent := match content with
    | some c => if c = "" then none else some c
    | none => none
  let newMessages := if e.addMessages then
      match request with
      | some r => some r.messages
      | none => none
    else e.messages
  { e with content := newContent, messages := newMessages }

/-- `reject` on an edge: the object's status becomes Rejected. -/
def CannoliEdge.reject (e : CannoliEdgeState) : CannoliEdgeState :=
  { e with status := CannoliObjectStatus.Rejected }

/-- A group member as `RepeatGroup.resetMembers` touches it: its status
(a vertex's reset returns it to Pending) and its outgoing edges. -/
structure MemberState where
  status : CannoliObjectStatus
  outgoingEdges : List CannoliEdgeState
deriving DecidableEq, Repr

/-- State of a `RepeatGroup` (models/group.ts). -/
structure RepeatGroupState where
  currentLoop : Nat
  maxLoops : Nat
  status : CannoliObjectStatus
  members : List MemberState
deriving DecidableEq, Repr

/-- `RepeatGroup.resetMembers` (models/group.ts): resets every member
(back to Pending) and every one of each member's outgoing edges (via
`CannoliEdge.reset`, which skips reflexive edges), without touching the
group itself. -/
def RepeatGroup.resetMembers (members : List MemberState) : List MemberState :=
  members.map fun m =>
    { status := CannoliObjectStatus.Pending,
      outgoingEdges := m.outgoingEdges.map CannoliEdge.reset }

/-- `RepeatGroup.membersFinished` (models/group.ts): if
`currentLoop < maxLoops`, increment `currentLoop` and reset the member
subtree (the Bool records that a reset pass happened); otherwise mark
the group Complete. -/
def RepeatGroup.membersFinished (s : RepeatGroupState) : RepeatGroupState × Bool :=
  if s.currentLoop < s.maxLoops then
    ({ s with currentLoop := s.currentLoop + 1,
              members := RepeatGroup.resetMembers s.members }, true)
  else
    ({ s with status := CannoliObjectStatus.Complete }, false)

/-- `membersFinished` invoked `k` times in a row. -/
def RepeatGroup.run : Nat → RepeatGroupState → RepeatGroupState
  | 0, s => s
  | k + 1, s => RepeatGroup.run k (RepeatGroup.membersFinished s).1

/-- Number of member-subtree resets performed over `k` invocations of
`membersFinished`. -/
def RepeatGroup.countResets : Nat → RepeatGroupState → Nat
  | 0, _ => 0
  | k + 1, s =>
      (if (RepeatGroup.membersFinished s).2 then 1 else 0) +
        RepeatGroup.countResets k (RepeatGroup.membersFinished s).1

/-- A repeat group as execution starts: `currentLoop = 0`, Executing. -/
def RepeatGroup.init (maxLoops : Nat) (members : List MemberState) : RepeatGroupState :=
  { currentLoop := 0, maxLoops := maxLoops,
    status := CannoliObjectStatus.Executing, members := members }

/-- A group as a `LoggingEdge` sees one of its `crossingOutGroups` through
the graph: its class (`RepeatGroup` / `ForEachGroup` / other), status and
`currentLoop`. -/
structure CrossGroup where
  cls : GroupType
  status : CannoliObjectStatus
  currentLoop : Nat
deriving DecidableEq, Repr

/-- Base `CannoliEdge.dependencyCompleted` (edge.ts): execute iff all
dependencies are complete and the edge's own status is Pending. Returns
whether `execute()` is invoked. -/
def CannoliEdge.dependencyCompletedFires (allDependenciesComplete : Bool)
    (status : CannoliObjectStatus) : Bool :=
  allDependenciesComplete && status == CannoliObjectStatus.Pending

/-- Base `CannoliNode.dependencyCompleted` (node.ts): execute iff all
dependencies are complete and the node's own status is Pending. -/
def CannoliNode.dependencyCompletedFires (allDependenciesComplete : Bool)
    (status : CannoliObjectStatus) : Bool :=
  allDependenciesComplete && status == CannoliObjectStatus.Pending

/-- `LoggingEdge.dependencyCompleted` (edge.ts): execute as soon as the
source vertex is Complete and every `ForEachGroup` the edge crosses out
of is Complete. The edge's own status (`selfStatus`) is never
consulted. -/
def LoggingEdge.dependencyCompletedFires (selfStatus : CannoliObjectStatus)
    (sourceStatus : CannoliObjectStatus) (crossingOutGroups : List CrossGroup) : Bool :=
  sourceStatus == CannoliObjectStatus.Complete &&
    crossingOutGroups.all fun g =>
      !(g.cls == GroupType.ForEach) || g.status == CannoliObjectStatus.Complete

/-- The dependency argument of `ContentNode.dependencyCompleted`, as the
code classifies it: a `LoggingEdge` (with the types of the groups it
crosses out of), a `ChatResponseEdge`, or anything else. -/
inductive ContentNodeDep where
  | logging (crossingOutGroupTypes : List GroupType)
  | chatResponse
  | other
deriving DecidableEq, Repr

/-- `ContentNode.dependencyCompleted` (node.ts): if the dependency is a
logging edge that does not cross out of a ForEach group, or a
chat-response edge, execute regardless of this node's status; otherwise
execute iff all dependencies are complete and the status is Pending. -/
def ContentNode.dependencyCompletedFires (status : CannoliObjectStatus)
    (allDependenciesComplete : Bool) (dep : ContentNodeDep) : Bool :=
  let immediate :=
    match dep with
    | .logging gs => !(gs.any fun g => g == GroupType.ForEach)
    | .chatResponse => true
    | .other => false
  if immediate then true
  else allDependenciesComplete && status == CannoliObjectStatus.Pending

/-- JS whitespace test (the characters relevant to the inputs here). -/
def jsWhitespace (c : Char) : Bool :=
  c = ' ' || c = '\t' || c = '\n' || c = '\r'

/-- Drop leading and trailing whitespace from a character list
(JS `String.prototype.trim`). -/
def trimCharList (l : List Char) : List Char :=
  ((l.dropWhile jsWhitespace).reverse.dropWhile jsWhitespace).reverse

/-- JS `String.prototype.trim` on a string. -/
def jsTrim (s : String) : String :=
  String.mk (trimCharList s.toList)

/-- Does the first list start with the second (pattern)? -/
def startsWithList : List Char → List Char → Bool
  | _, [] => true
  | [], _ :: _ => false
  | c :: cs, p :: ps => c = p && startsWithList cs ps

/-- `str.substring(a, b)` on a character list. -/
def subList (l : List Char) (a b : Nat) : List Char :=
  (l.drop a).take (b - a)

/-- Split a character list on newline characters (JS `split("\n")`). -/
def splitLinesAux : List Char → List Char → List (List Char)
  | [], acc => [acc.reverse]
  | '\n' :: rest, acc => acc.reverse :: splitLinesAux rest []
  | c :: rest, acc => splitLinesAux rest (c :: acc)

/-- Lines of a character list. -/
def splitLines (l : List Char) : List (List Char) :=
  splitLinesAux l []

/-- One JSON string literal body: consumes characters up to the closing
quote, resolving a backslash escape to the escaped character (the
escapes `\"` and `\\`, which is all the inputs considered here use). -/
def jsonStringBody : List Char → Option (List Char × List Char)
  | [] => none
  | '"' :: rest => some ([], rest)
  | '\\' :: rest =>
      match rest with
      | [] => none
      | c :: rest' => (jsonStringBody rest').map fun p => (c :: p.1, p.2)
  | c :: rest => (jsonStringBody rest).map fun p => (c :: p.1, p.2)

/-- Items of a JSON array of string literals, after the opening `[`. -/
def jsonArrayItems : Nat → List Char → Option (List String × List Char)
  | 0, _ => none
  | n + 1, l =>
      match l.dropWhile jsWhitespace with
      | ']' :: rest => some ([], rest)
      | '"' :: rest =>
          match jsonStringBody rest with
          | none => none
          | some (item, rem) =>
              match rem.dropWhile jsWhitespace with
              | ']' :: rest' => some ([String.mk item], rest')
              | ',' :: rest' =>
                  match jsonArrayItems n rest' with
                  | none => none
                  | some (items, rest'') => some (String.mk item :: items, rest'')
              | _ => none
      | _ => none

/-- `JSON.parse`, modelled for JSON documents that are arrays of string
literals (the shape the claims exercise); any other document is treated
as unparseable, which sends `getListArrayFromContent` to its markdown
fallback exactly as a JSON parse failure does in the source. -/
def parseJsonStringArray (s : String) : Option (List String) :=
  match s.toList.dropWhile jsWhitespace with
  | '[' :: rest =>
      match jsonArrayItems (rest.length + 1) rest with
      | some (items, rem) =>
          if (rem.dropWhile jsWhitespace).isEmpty then some items else none
      | none => none
  | _ => none

/-- Does the line start with `digits. ` (the regex `/^\d+\. /`)? -/
def digitDotPrefix (l : List Char) : Bool :=
  let digits := l.takeWhile Char.isDigit
  !digits.isEmpty && startsWithList (l.drop digits.length) ". ".toList

/-- Remove a leading `digits. ` prefix (the `replace(/^\d+\. /, "")`). -/
def dropDigitDot (l : List Char) : List Char :=
  if digitDotPrefix l then l.drop ((l.takeWhile Char.isDigit).length + 2) else l

/-- `CannoliNode.getListArrayFromContent` (node.ts): try to parse the
content as a JSON array (items kept as strings); otherwise keep the
lines that look like markdown bullet (`- `) or numbered (`1. `) list
items, stripped of their marker. -/
def CannoliNode.getListArrayFromContent (content : String) : List String :=
  match parseJsonStringArray content with
  | some jsonArray => jsonArray
  | none =>
      let lines := splitLines content.toList
      let listItems := lines.filter fun line =>
        startsWithList line "- ".toList || digitDotPrefix line
      listItems.map fun item =>
        if startsWithList item "- ".toList then String.mk (item.drop 2)
        else String.mk (dropDigitDot item)

/-- Loop body of `CannoliNode.loadOutgoingEdges` (node.ts): for each
outgoing edge in encounter order — an edge that is not a
`ChatResponseEdge` and not item-typed is loaded with the full content;
an item-typed edge is loaded with the list item at the running item
index (JS falsiness: a missing or empty item rejects the edge and does
not advance the index); a `ChatResponseEdge` is left untouched. -/
def CannoliNode.loadOutgoingEdgesGo (listItems : List String) (content : String)
    (request : Option ChatRequest) :
    Nat → List CannoliEdgeState → List CannoliEdgeState
  | _, [] => []
  | itemIndex, e :: rest =>
      if !e.isChatResponse && e.etype ≠ EdgeType.Item then
        CannoliEdge.load e (some content) request ::
          CannoliNode.loadOutgoingEdgesGo listItems content request itemIndex rest
      else if e.etype = EdgeType.Item then
        match listItems.get? itemIndex with
        | none =>
            CannoliEdge.reject e ::
              CannoliNode.loadOutgoingEdgesGo listItems content request itemIndex rest
        | some item =>
            if item = "" then
              CannoliEdge.reject e ::
                CannoliNode.loadOutgoingEdgesGo listItems content request itemIndex rest
            else
              CannoliEdge.load e (some item) request ::
                CannoliNode.loadOutgoingEdgesGo listItems content request (itemIndex + 1) rest
      else
        e :: CannoliNode.loadOutgoingEdgesGo listItems content request itemIndex rest

/-- `CannoliNode.loadOutgoingEdges` (node.ts) for a node that is not of
the Http content type (for such nodes both `this.type ===
ContentNodeType.Http` branches are skipped, so `listItems` comes from
`getListArrayFromContent(content)` and every non-item edge receives the
content verbatim). -/
def CannoliNode.loadOutgoingEdges (content : String) (request : Option ChatRequest)
    (outgoingEdges : List CannoliEdgeState) : List CannoliEdgeState :=
  CannoliNode.loadOutgoingEdgesGo
    (CannoliNode.getListArrayFromContent content) content request 0 outgoingEdges

/-- The distribution behaviour claimed for `loadOutgoingEdges` (with the
chat-response exclusion the code actually performs): relative to a list
of parsed items and a running item index, each non-item non-chat-response
edge is loaded with the full content, each item edge is loaded with the
item at the current index (advancing it) or rejected when no non-empty
item remains, and each chat-response edge is left untouched. -/
inductive DistributedEdges (items : List String) (content : String)
    (request : Option ChatRequest) : Nat → List CannoliEdgeState → List CannoliEdgeState → Prop
  | nil (idx : Nat) : DistributedEdges items content request idx [] []
  | full (idx : Nat) (e : CannoliEdgeState) (rest out : List CannoliEdgeState)
      (hcr : e.isChatResponse = false) (hty : e.etype ≠ EdgeType.Item)
      (h : DistributedEdges items content request idx rest out) :
      DistributedEdges items content request idx (e :: rest)
        (CannoliEdge.load e (some content) request :: out)
  | item (idx : Nat) (e : CannoliEdgeState) (rest out : List CannoliEdgeState)
      (it : String) (hty : e.etype = EdgeType.Item)
      (hit : items.get? idx = some it) (hne : it ≠ "")
      (h : DistributedEdges items content request (idx + 1) rest out) :
      DistributedEdges items content request idx (e :: rest)
        (CannoliEdge.load e (some it) request :: out)
  | itemExhausted (idx : Nat) (e : CannoliEdgeState) (rest out : List CannoliEdgeState)
      (hty : e.etype = EdgeType.Item)
      (hit : items.get? idx = none ∨ items.get? idx = some "")
      (h : DistributedEdges items content request idx rest out) :
      DistributedEdges items content request idx (e :: rest)
        (CannoliEdge.reject e :: out)
  | chatResponse (idx : Nat) (e : CannoliEdgeState) (rest out : List CannoliEdgeState)
      (hcr : e.isChatResponse = true) (hty : e.etype ≠ EdgeType.Item)
      (h : DistributedEdges items content request idx rest out) :
      DistributedEdges items content request idx (e :: rest) (e :: out)

/-- The opening and closing brace characters. -/
def lbrace : Char := Char.ofNat 123

/-- See `lbrace`. -/
def rbrace : Char := Char.ofNat 125

/-- `JSON.parse(choiceFunctionArgs).choice` in `ChooseNode.loadOutgoingEdges`,
modelled for one-string-field JSON objects (the shape the choice function
produces). Returns `none` when the string is not such an object (where
`JSON.parse` would throw), and otherwise the value of the `choice` field
if that is the field's name (`some none` models a parsed object without
a `choice` field, whose access yields `undefined`). -/
def parseChoiceField (s : String) : Option (Option String) :=
  match s.toList.dropWhile jsWhitespace with
  | [] => none
  | c :: rest =>
      if c = lbrace then
        match rest.dropWhile jsWhitespace with
        | '"' :: keyRest =>
            match jsonStringBody keyRest with
            | none => none
            | some (key, rem) =>
                match rem.dropWhile jsWhitespace with
                | ':' :: valRest =>
                    match valRest.dropWhile jsWhitespace with
                    | '"' :: valRest2 =>
                        match jsonStringBody valRest2 with
                        | none => none
                        | some (value, rem2) =>
                            match rem2.dropWhile jsWhitespace with
                            | c2 :: rem3 =>
                                if c2 = rbrace ∧ (rem3.dropWhile jsWhitespace).isEmpty then
                                  some (if String.mk key = "choice" then
                                          some (String.mk value)
                                        else none)
                                else none
                            | [] => none
                    | _ => none
                | _ => none
        | _ => none
      else none

/-- `ChooseNode.rejectUnselectedOptions` (node.ts): reject every outgoing
choice-typed edge whose text differs from the selected choice (a missing
choice, `undefined` in JS, differs from every edge text). -/
def ChooseNode.rejectUnselectedOptions (choice : Option String)
    (outgoingEdges : List CannoliEdgeState) : List CannoliEdgeState :=
  outgoingEdges.map fun e =>
    if e.etype = EdgeType.Choice ∧ some e.text ≠ choice then CannoliEdge.reject e else e

/-- Outcome of `ChooseNode.loadOutgoingEdges`: a node-level error (the
`this.error` path), an uncaught exception, or the loaded edges. -/
inductive ChooseLoadResult where
  | nodeError (msg : String)
  | thrown
  | loaded (edges : List CannoliEdgeState)
deriving DecidableEq, Repr

/-- `ChooseNode.loadOutgoingEdges` (node.ts): read the function-call
arguments off the last request message (a missing last message or
unparsable arguments model the JS exception; absent or empty arguments
take the `this.error` path), parse the selected choice, reject all
unselected choice edges, then run the base `loadOutgoingEdges` with the
raw argument string as content. -/
def ChooseNode.loadOutgoingEdges (request : ChatRequest)
    (outgoingEdges : List CannoliEdgeState) : ChooseLoadResult :=
  match request.messages.getLast? with
  | none => ChooseLoadResult.thrown
  | some lastMessage =>
      match lastMessage.functionCall with
      | none => ChooseLoadResult.nodeError "Choice function call has no arguments."
      | some (_, choiceFunctionArgs) =>
          if choiceFunctionArgs = "" then
            ChooseLoadResult.nodeError "Choice function call has no arguments."
          else
            match parseChoiceField choiceFunctionArgs with
            | none => ChooseLoadResult.thrown
            | some choice =>
                ChooseLoadResult.loaded
                  (CannoliNode.loadOutgoingEdges choiceFunctionArgs (some request)
                    (ChooseNode.rejectUnselectedOptions choice outgoingEdges))

/-- JS `parseInt` in base 10 (the form group labels take): skip leading
whitespace, take an optional sign and then a maximal run of digits;
no digits is `NaN`, modelled as `none`. -/
def parseIntJS (s : String) : Option Int :=
  let l := s.toList.dropWhile jsWhitespace
  let signAndRest : Int × List Char :=
    match l with
    | '-' :: rest => (-1, rest)
    | '+' :: rest => (1, rest)
    | _ => (1, l)
  let digits := signAndRest.2.takeWhile Char.isDigit
  if digits.isEmpty then none
  else
    some (signAndRest.1 *
      (digits.foldl (fun acc c => acc * 10 + (c.toNat - '0'.toNat)) 0 : Nat))

/-- `CannoliGroup.getLabelNumber` (models/group.ts): strip a leading
group-prefix character (the prefix map holds only `<`, the List prefix)
and `parseInt` the rest; `NaN` yields null. -/
def CannoliGroup.getLabelNumber (text : String) : Option Int :=
  let label :=
    match text.toList with
    | c :: rest => if c = '<' then rest else text.toList
    | [] => text.toList
  parseIntJS (String.mk label)

/-- Indicated group types (`IndicatedGroupType` in the source). -/
inductive IndicatedGroupType where
  | List
  | Repeat
  | Basic
  | NonLogic
deriving DecidableEq, Repr

/-- `CannoliGroup.getIndicatedType` (models/group.ts): leading `<`
(the prefix map) indicates List; else color `"5"` (the color map)
indicates List; else a non-null label number indicates Repeat; else a
group all of whose members indicate NonLogic (modelled as a Bool per
member; vacuously true with no members) is NonLogic; else Basic. -/
def CannoliGroup.getIndicatedType (text : String) (color : Option String)
    (membersIndicateNonLogic : List Bool) : IndicatedGroupType :=
  let firstIsPrefix : Bool :=
    match text.toList with
    | c :: _ => c == '<'
    | [] => false
  if firstIsPrefix then IndicatedGroupType.List
  else if color = some "5" then IndicatedGroupType.List
  else if (CannoliGroup.getLabelNumber text).isSome then IndicatedGroupType.Repeat
  else if membersIndicateNonLogic.all (· = true) then IndicatedGroupType.NonLogic
  else IndicatedGroupType.Basic

/-- `CannoliGroup.decideType` (models/group.ts): the indicated group type
maps one-to-one onto the decided group type. -/
def CannoliGroup.decideType : IndicatedGroupType → GroupType
  | IndicatedGroupType.Repeat => GroupType.Repeat
  | IndicatedGroupType.List => GroupType.List
  | IndicatedGroupType.Basic => GroupType.Basic
  | IndicatedGroupType.NonLogic => GroupType.NonLogic

/-- The typed object `CannoliGroup.createTyped` produces. -/
inductive TypedGroup where
  | basic
  | repeatGroup (maxLoops : Int)
  | listGroup (numberOfVersions : Int) (copyId : Int)
deriving DecidableEq, Repr

/-- `CannoliGroup.createTyped` (models/group.ts): decide the type; a
Repeat or List decision without a parseable label number throws the
corresponding construction error; Basic yields a basic group; NonLogic
yields no object at all (null, without error). -/
def CannoliGroup.createTyped (id : String) (text : String) (color : Option String)
    (membersIndicateNonLogic : List Bool) : Except String (Option TypedGroup) :=
  let type := CannoliGroup.decideType
    (CannoliGroup.getIndicatedType text color membersIndicateNonLogic)
  let labelNumber := CannoliGroup.getLabelNumber text
  match type with
  | GroupType.Repeat =>
      match labelNumber with
      | none => Except.error
          ("Error on object " ++ id ++ ": repeat group must have a positive integer label.")
      | some n => Except.ok (some (TypedGroup.repeatGroup n))
  | GroupType.List =>
      match labelNumber with
      | none => Except.error
          ("Error on object " ++ id ++ ": list group must have a positive integer label.")
      | some n => Except.ok (some (TypedGroup.listGroup n 0))
  | GroupType.Basic => Except.ok (some TypedGroup.basic)
  | GroupType.NonLogic => Except.ok none
  | _ => Except.error ("Error on object " ++ id ++ ": type is not a valid group type.")

/-- State of a `LoggingEdge` as `load` touches it: its accumulated
content and the groups it crosses out of. -/
structure LoggingEdgeState where
  content : Option String
  crossingOutGroups : List CrossGroup
deriving DecidableEq, Repr

/-- `LoggingEdge.getConfigString` (edge.ts): the request's non-message
properties rendered as `key: value` lines, skipping falsy values. -/
def LoggingEdge.getConfigString (request : ChatRequest) : String :=
  request.fields.foldl
    (fun acc kv => if kv.2 ≠ "" then acc ++ kv.1 ++ ": " ++ kv.2 ++ "\n" else acc) ""

/-- `LoggingEdge.getLoopNumbers` (edge.ts): the `currentLoop` of every
`RepeatGroup` among the crossed-out groups, reversed. -/
def LoggingEdge.getLoopNumbers (e : LoggingEdgeState) : List Nat :=
  ((e.crossingOutGroups.filter fun g => g.cls = GroupType.Repeat).map
    (fun g => g.currentLoop)).reverse

/-- `LoggingEdge.getForEachVersionNumbers` (edge.ts): the `currentLoop`
of every `ForEachGroup` among the crossed-out groups, reversed. -/
def LoggingEdge.getForEachVersionNumbers (e : LoggingEdgeState) : List Nat :=
  ((e.crossingOutGroups.filter fun g => g.cls = GroupType.ForEach).map
    (fun g => g.currentLoop)).reverse

/-- `role.charAt(0).toUpperCase() + role.slice(1)`. -/
def capitalizeFirst (s : String) : String :=
  match s.toList with
  | [] => ""
  | c :: rest => String.mk (c.toUpper :: rest)

/-- `LoggingEdge.formatInteractionHeaders` (edge.ts): a `#### <u>Role</u>:`
header per message followed by its content (a function call is rendered
as a labeled json code block), trimmed. -/
def LoggingEdge.formatInteractionHeaders (messages : List ChatMessage) : String :=
  jsTrim (messages.foldl
    (fun acc m =>
      let content :=
        match m.functionCall with
        | some fc =>
            "Function Call: **" ++ fc.1 ++ "**\nArguments:\n```json\n" ++ fc.2 ++ "\n```"
        | none => m.content
      acc ++ "#### <u>" ++ capitalizeFirst m.role ++ "</u>:\n" ++ content ++ "\n")
    "")

/-- `str.slice(0, -1)`. -/
def dropLastChar (s : String) : String :=
  String.mk s.toList.dropLast

/-- `LoggingEdge.formatLoopHeader` (edge.ts): `# Loop ` followed by each
loop number plus one and a dot, with the final character removed. -/
def LoggingEdge.formatLoopHeader (loopNumbers : List Nat) : String :=
  dropLastChar (loopNumbers.foldl (fun acc n => acc ++ toString (n + 1) ++ ".") "# Loop ")

/-- `LoggingEdge.formatVersionHeader` (edge.ts): `# Version ` followed by
each version number and a dot, with the final character removed. -/
def LoggingEdge.formatVersionHeader (versionNumbers : List Nat) : String :=
  dropLastChar (versionNumbers.foldl (fun acc n => acc ++ toString n ++ ".") "# Version ")

/-- `LoggingEdge.load` (edge.ts): without a request it throws
("Logging edge was loaded without a request, this should never happen");
with one it builds the loop header, version header, interaction
transcript and config dump, and appends them to any existing content.
The `content` argument is never consulted. -/
def LoggingEdge.load (e : LoggingEdgeState) (content : Option String)
    (request : Option ChatRequest) : Except String LoggingEdgeState :=
  match request with
  | none =>
      Except.error "Logging edge was loaded without a request, this should never happen"
  | some req =>
      let configString := LoggingEdge.getConfigString req
      let messages := req.messages
      let repeatLoopNumbers := LoggingEdge.getLoopNumbers e
      let loopHeader := LoggingEdge.formatLoopHeader repeatLoopNumbers
      let forEachVersionNumbers := LoggingEdge.getForEachVersionNumbers e
      let versionHeader := LoggingEdge.formatVersionHeader forEachVersionNumbers
      let logs1 := if repeatLoopNumbers.length > 0 then loopHeader ++ "\n" else ""
      let logs2 :=
        if forEachVersionNumbers.length > 0 then logs1 ++ versionHeader ++ "\n" else logs1
      let logs3 := logs2 ++ LoggingEdge.formatInteractionHeaders messages
      let logs4 := logs3 ++ "\n#### Config\n" ++ configString ++ "\n"
      let newContent :=
        match e.content with
        | some c => c ++ "\n" ++ logs4
        | none => logs4
      Except.ok { e with content := some newContent }

/-- JS `String.prototype.replace` with a plain-string pattern: replace the
first occurrence only. -/
def replaceFirstList : List Char → List Char → List Char → List Char
  | [], _, _ => []
  | c :: cs, pat, repl =>
      if startsWithList (c :: cs) pat then repl ++ (c :: cs).drop pat.length
      else c :: replaceFirstList cs pat repl

/-- Split a character list around the first occurrence of a pattern. -/
def splitOnFirstList (pat : List Char) : List Char → Option (List Char × List Char)
  | [] => if startsWithList [] pat then some ([], []) else none
  | c :: cs =>
      if startsWithList (c :: cs) pat then some ([], (c :: cs).drop pat.length)
      else (splitOnFirstList pat cs).map fun p => (c :: p.1, p.2)

/-- The role alternation the converter substitutes for the role
placeholder: `(system|user|assistant)`. -/
def altToken : List Char := "(system|user|assistant)".toList

/-- `ChatConverterEdge.stringToArray`'s pattern construction (edge.ts):
the format with `{{role}}` replaced by the role alternation and
`{{content}}` removed, trimmed. -/
def ChatConverterEdge.rolePattern (format : String) : List Char :=
  trimCharList
    (replaceFirstList
      (replaceFirstList format.toList "\x7b\x7brole\x7d\x7d".toList altToken)
      "\x7b\x7bcontent\x7d\x7d".toList [])

/-- One attempted regex match at the current position: try the role
alternatives in the alternation's order; a match is the literal prefix,
the role name, then the literal suffix. Returns the role and the
match's length. -/
def tryRoles (pre post rem : List Char) : Option (String × Nat) :=
  if startsWithList rem (pre ++ "system".toList ++ post) then
    some ("system", (pre ++ "system".toList ++ post).length)
  else if startsWithList rem (pre ++ "user".toList ++ post) then
    some ("user", (pre ++ "user".toList ++ post).length)
  else if startsWithList rem (pre ++ "assistant".toList ++ post) then
    some ("assistant", (pre ++ "assistant".toList ++ post).length)
  else none

/-- `regex.exec` from a position: scan left to right for the first
position where a role marker matches; returns the role with the match's
start and end indices. `rem` is the string's suffix starting at `pos`. -/
def findMatchFrom (pre post : List Char) : List Char → Nat → Option (String × Nat × Nat)
  | [], pos =>
      match tryRoles pre post [] with
      | some rl => some (rl.1, pos, pos + rl.2)
      | none => none
  | c :: rest, pos =>
      match tryRoles pre post (c :: rest) with
      | some rl => some (rl.1, pos, pos + rl.2)
      | none => findMatchFrom pre post rest (pos + 1)

/-- All role-marker matches in order, each search resuming at the end of
the previous match (as the source maintains `regex.lastIndex`). Fuel
bounds the scan; with the non-empty markers used here it never runs
out. -/
def allMatchesGo (pre post chars : List Char) : Nat → Nat → List (String × Nat × Nat)
  | 0, _ => []
  | fuel + 1, pos =>
      match findMatchFrom pre post (chars.drop pos) pos with
      | none => []
      | some m => m :: allMatchesGo pre post chars fuel m.2.2

/-- See `allMatchesGo`. -/
def allMatches (pre post chars : List Char) : List (String × Nat × Nat) :=
  allMatchesGo pre post chars (chars.length + 1) 0

/-- A role-tagged message produced by the converter. -/
structure RoleMessage where
  role : String
  content : String
deriving DecidableEq, Repr

/-- The conversion loop's message construction: each matched role takes
as content the trimmed text between its marker's end and the next
marker's start (the last one runs to the end of the string); also
returns the final `lastIndex`, which is the last content's end. -/
def buildMsgs (chars : List Char) : List (String × Nat × Nat) → List RoleMessage × Nat
  | [] => ([], 0)
  | [m] =>
      ([{ role := m.1,
          content := String.mk (trimCharList (subList chars m.2.2 chars.length)) }],
       chars.length)
  | m :: m2 :: rest =>
      let built := buildMsgs chars (m2 :: rest)
      ({ role := m.1,
         content := String.mk (trimCharList (subList chars m.2.2 m2.2.1)) } :: built.1,
       built.2)

/-- `ChatConverterEdge.stringToArray` (edge.ts): find the role markers
derived from the format; with no match the whole trimmed string becomes
a single user message; otherwise each marker yields a message whose
content runs to the next marker (or the end), and a trailing user
message is appended only when the final `lastIndex` is below the string
length minus one. The model assumes the format contains the `{{role}}`
placeholder and no regex metacharacters outside the placeholders (true
of the chat format strings shipped with the source); a format without
the placeholder is treated as never matching. -/
def ChatConverterEdge.stringToArray (format str : String) : List RoleMessage :=
  match splitOnFirstList altToken (ChatConverterEdge.rolePattern format) with
  | none => [{ role := "user", content := jsTrim str }]
  | some prePost =>
      match allMatches prePost.1 prePost.2 str.toList with
      | [] => [{ role := "user", content := jsTrim str }]
      | m :: ms =>
          let built := buildMsgs str.toList (m :: ms)
          if built.2 < str.toList.length - 1 then
            built.1 ++
              [{ role := "user",
                 content := String.mk
                   (trimCharList (subList str.toList built.2 str.toList.length)) }]
          else built.1

/-- C2: the code at the failing input. A Pending group with a single
member-vertex dependency (added by `setMembers`) whose member is already
Complete, and with zero incoming-edge dependencies (so every edge
dependency is trivially Complete): `allEdgeDependenciesComplete` returns
false because the member entry is not of edge kind, so
`dependencyCompleted` does not execute the group — contradicting the
claim (and the code's own comment "If all the dependencies that are
edges are complete, execute") that only edge dependencies gate the
Pending→Executing transition. Adding a Complete edge dependency
alongside the member changes nothing. -/
theorem C2_group_with_member_dep_never_executes :
    CannoliGroup.dependencyCompleted CannoliObjectStatus.Pending
      [DepEntry.single ⟨CannoliObjectKind.Node, CannoliObjectStatus.Complete⟩] []
      = GroupAction.noAction ∧
    CannoliGroup.dependencyCompleted CannoliObjectStatus.Pending
      [DepEntry.single ⟨CannoliObjectKind.Edge, CannoliObjectStatus.Complete⟩,
       DepEntry.single ⟨CannoliObjectKind.Node, CannoliObjectStatus.Complete⟩] []
      = GroupAction.noAction ∧
    CannoliGroup.allEdgeDependenciesComplete
      [DepEntry.single ⟨CannoliObjectKind.Node, CannoliObjectStatus.Complete⟩] = false := by
  decide

/-- C5: an OR dependency entry of two objects is satisfied by the group's
all-edge-dependencies check exactly when at least one of the two is
Complete and both are of edge kind; moreover the check treats entries
independently (an entry is conjoined with the rest of the list). In
particular a two-edge entry is satisfied as soon as either edge is
Complete, whatever the other's terminal state, and a set containing a
non-edge member is never satisfied by a single completion. -/
theorem C5_or_entry_satisfaction :
    (∀ d1 d2 : DepObj,
      CannoliGroup.allEdgeDependenciesComplete [DepEntry.ors [d1, d2]] =
        ((d1.status == CannoliObjectStatus.Complete ||
          d2.status == CannoliObjectStatus.Complete) &&
         (d1.kind == CannoliObjectKind.Edge && d2.kind == CannoliObjectKind.Edge))) ∧
    (∀ (d1 d2 : DepObj) (rest : List DepEntry),
      CannoliGroup.allEdgeDependenciesComplete (DepEntry.ors [d1, d2] :: rest) =
        (CannoliGroup.allEdgeDependenciesComplete [DepEntry.ors [d1, d2]] &&
         CannoliGroup.allEdgeDependenciesComplete rest)) := by
  constructor
  · intro ⟨k1, s1⟩ ⟨k2, s2⟩
    cases k1 <;> cases k2 <;> cases s1 <;> cases s2 <;> rfl
  · intro d1 d2 rest
    simp [CannoliGroup.allEdgeDependenciesComplete, Bool.and_assoc, Bool.and_comm,
      Bool.and_left_comm]

/-- C4: a reflexive edge is left entirely unchanged (content and status
included) by any number of `reset` invocations; a non-reflexive edge is
returned to Pending with its content cleared by the first one. -/
theorem C4_reset_reflexive_noop :
    ∀ (e : CannoliEdgeState) (n : Nat),
      CannoliEdge.resetIter n e =
        if e.isReflexive then e
        else if n = 0 then e else CannoliObject.reset e := by
  intro e n
  induction n generalizing e with
  | zero => cases h : e.isReflexive <;> simp [CannoliEdge.resetIter, h]
  | succ n ih =>
      cases h : e.isReflexive with
      | true =>
          simp [CannoliEdge.resetIter, CannoliEdge.reset, h, ih,
            CannoliObject.reset]
      | false =>
          simp [CannoliEdge.resetIter, CannoliEdge.reset, h, ih,
            CannoliObject.reset]

theorem RepeatGroup.run_trajectory (N : Nat) :
    ∀ (k c : Nat) (ms : List MemberState), c ≤ N →
      (RepeatGroup.run k
          { currentLoop := c, maxLoops := N,
            status := CannoliObjectStatus.Executing, members := ms }).status =
        (if c + k ≤ N then CannoliObjectStatus.Executing
         else CannoliObjectStatus.Complete) ∧
      (RepeatGroup.run k
          { currentLoop := c, maxLoops := N,
            status := CannoliObjectStatus.Executing, members := ms }).currentLoop =
        min (c + k) N ∧
      RepeatGroup.countResets k
          { currentLoop := c, maxLoops := N,
            status := CannoliObjectStatus.Executing, members := ms } =
        min (c + k) N - c := by
  intro k
  induction k with
  | zero =>
      intro c ms hc
      simp [RepeatGroup.run, RepeatGroup.countResets, Nat.min_eq_left hc, hc]
  | succ k ih =>
      intro c ms hc
      by_cases h : c < N
      · have step :
            RepeatGroup.membersFinished
              { currentLoop := c, maxLoops := N,
                status := CannoliObjectStatus.Executing, members := ms } =
            ({ currentLoop := c + 1, maxLoops := N,
               status := CannoliObjectStatus.Executing,
               members := RepeatGroup.resetMembers ms }, true) := by
          simp [RepeatGroup.membersFinished, h]
        obtain ⟨h1, h2, h3⟩ := ih (c + 1) (RepeatGroup.resetMembers ms) h
        have hadd : c + 1 + k = c + (k + 1) := by omega
        refine ⟨?_, ?_, ?_⟩
        · rw [RepeatGroup.run, step]
          dsimp only
          rw [h1, hadd]
        · rw [RepeatGroup.run, step]
          dsimp only
          rw [h2, hadd]
        · rw [RepeatGroup.countResets, step]
          dsimp only
          rw [h3]
          have hm1 : c + 1 ≤ min (c + 1 + k) N := le_min (by omega) h
          have hm2 : min (c + 1 + k) N = min (c + (k + 1)) N := by rw [hadd]
          simp only [if_true]
          omega
      · have hcN : c = N := Nat.le_antisymm hc (Nat.not_lt.mp h)
        subst hcN
        have step :
            RepeatGroup.membersFinished
              { currentLoop := c, maxLoops := c,
                status := CannoliObjectStatus.Executing, members := ms } =
            ({ currentLoop := c, maxLoops := c,
               status := CannoliObjectStatus.Complete, members := ms }, false) := by
          simp [RepeatGroup.membersFinished]
        have stay : ∀ (j : Nat),
            RepeatGroup.run j
              { currentLoop := c, maxLoops := c,
                status := CannoliObjectStatus.Complete, members := ms } =
              { currentLoop := c, maxLoops := c,
                status := CannoliObjectStatus.Complete, members := ms } ∧
            RepeatGroup.countResets j
              { currentLoop := c, maxLoops := c,
                status := CannoliObjectStatus.Complete, members := ms } = 0 := by
          intro j
          induction j with
          | zero => simp [RepeatGroup.run, RepeatGroup.countResets]
          | succ j ihj =>
              have stepC :
                  RepeatGroup.membersFinished
                    { currentLoop := c, maxLoops := c,
                      status := CannoliObjectStatus.Complete, members := ms } =
                  ({ currentLoop := c, maxLoops := c,
                     status := CannoliObjectStatus.Complete, members := ms }, false) := by
                simp [RepeatGroup.membersFinished]
              refine ⟨?_, ?_⟩
              · rw [RepeatGroup.run, stepC]; exact ihj.1
              · rw [RepeatGroup.countResets, stepC]
                simpa using ihj.2
        refine ⟨?_, ?_, ?_⟩
        · rw [RepeatGroup.run, step]
          dsimp only
          rw [(stay k).1]
          have hlt : ¬ (c + (k + 1) ≤ c) := by omega
          simp [hlt]
        · rw [RepeatGroup.run, step]
          dsimp only
          rw [(stay k).1]
          dsimp only
          omega
        · rw [RepeatGroup.countResets, step]
          dsimp only
          rw [(stay k).2]
          simp only [Bool.false_eq_true, if_false]
          omega

/-- C3: for a repeat group with `maxLoops = N` starting at
`currentLoop = 0` in Executing status, after `k` invocations of
`membersFinished` the group is still Executing for `k ≤ N` and Complete
for `k > N` (so the Complete transition happens exactly on the
`(N+1)`-th invocation), `currentLoop` has been incremented to
`min k N`, and exactly `min k N` member-subtree resets have been
performed — in particular exactly `N` resets over the first `N+1`
invocations. -/
theorem C3_repeat_group_loop_count :
    ∀ (N k : Nat) (ms : List MemberState),
      (RepeatGroup.run k (RepeatGroup.init N ms)).status =
        (if k ≤ N then CannoliObjectStatus.Executing
         else CannoliObjectStatus.Complete) ∧
      (RepeatGroup.run k (RepeatGroup.init N ms)).currentLoop = min k N ∧
      RepeatGroup.countResets k (RepeatGroup.init N ms) = min k N := by
  intro N k ms
  obtain ⟨h1, h2, h3⟩ := RepeatGroup.run_trajectory N k 0 ms (Nat.zero_le N)
  exact ⟨by simpa using h1, by simpa using h2, by simpa using h3⟩

/-- C1 counterexample: a `LoggingEdge` that is already Complete still has
`execute()` invoked by `dependencyCompleted` when its source is Complete
(and it crosses out of no ForEach group), because its override never
checks its own status — refuting "execute() is called only if the
object's status is Pending ... for every object kind, including
LoggingEdge". -/
theorem C1_counterexample_logging_edge_fires_when_complete :
    LoggingEdge.dependencyCompletedFires CannoliObjectStatus.Complete
        CannoliObjectStatus.Complete [] = true ∧
    CannoliObjectStatus.Complete ≠ CannoliObjectStatus.Pending := by
  decide

/-- C1 amended: the Pending guard holds for the base kinds — base edges,
base nodes and groups invoke `execute()` from `dependencyCompleted` only
in Pending status — but not for the overrides: a `LoggingEdge` fires
exactly when its source is Complete and all crossed-out ForEach groups
are Complete, regardless of its own status (e.g. when already Complete),
and a `ContentNode` fires on a logging-edge dependency that crosses no
ForEach group, or a chat-response dependency, regardless of its own
status (e.g. when already Complete with unsatisfied dependencies). -/
theorem C1_pending_guard_only_for_base_kinds :
    (∀ (a : Bool) (st : CannoliObjectStatus),
      CannoliEdge.dependencyCompletedFires a st = true ↔
        (a = true ∧ st = CannoliObjectStatus.Pending)) ∧
    (∀ (a : Bool) (st : CannoliObjectStatus),
      CannoliNode.dependencyCompletedFires a st = true ↔
        (a = true ∧ st = CannoliObjectStatus.Pending)) ∧
    (∀ (st : CannoliObjectStatus) (deps : List DepEntry)
        (memberStatuses : List CannoliObjectStatus),
      CannoliGroup.dependencyCompleted st deps memberStatuses = GroupAction.execute ↔
        (st = CannoliObjectStatus.Pending ∧
         CannoliGroup.allEdgeDependenciesComplete deps = true)) ∧
    (∀ (st : CannoliObjectStatus) (sourceStatus : CannoliObjectStatus),
      LoggingEdge.dependencyCompletedFires st sourceStatus [] =
        (sourceStatus == CannoliObjectStatus.Complete)) ∧
    (∀ (st : CannoliObjectStatus) (a : Bool),
      ContentNode.dependencyCompletedFires st a (ContentNodeDep.logging []) = true ∧
      ContentNode.dependencyCompletedFires st a ContentNodeDep.chatResponse = true) := by
  refine ⟨?_, ?_, ?_, ?_, ?_⟩
  · intro a st
    cases a <;> cases st <;> simp [CannoliEdge.dependencyCompletedFires]
  · intro a st
    cases a <;> cases st <;> simp [CannoliNode.dependencyCompletedFires]
  · intro st deps memberStatuses
    cases st with
    | Pending =>
        by_cases h : CannoliGroup.allEdgeDependenciesComplete deps <;>
          simp [CannoliGroup.dependencyCompleted, h]
    | Executing =>
        by_cases h : CannoliGroup.allMembersCompleteOrRejected memberStatuses <;>
          simp [CannoliGroup.dependencyCompleted, h]
    | Complete => simp [CannoliGroup.dependencyCompleted]
    | Rejected => simp [CannoliGroup.dependencyCompleted]
  · intro st sourceStatus
    simp [LoggingEdge.dependencyCompletedFires]
  · intro st a
    simp [ContentNode.dependencyCompletedFires]

theorem CannoliNode.loadOutgoingEdgesGo_distributes (items : List String)
    (content : String) (request : Option ChatRequest) :
    ∀ (es : List CannoliEdgeState) (idx : Nat),
      DistributedEdges items content request idx es
        (CannoliNode.loadOutgoingEdgesGo items content request idx es) := by
  intro es
  induction es with
  | nil => intro idx; exact .nil idx
  | cons e rest ih =>
      intro idx
      rw [CannoliNode.loadOutgoingEdgesGo]
      by_cases hcr : e.isChatResponse = true
      · have c1 : ¬ ((!e.isChatResponse && decide (e.etype ≠ EdgeType.Item)) = true) := by
          simp [hcr]
        rw [if_neg c1]
        by_cases hty : e.etype = EdgeType.Item
        · rw [if_pos hty]
          cases hit : items.get? idx with
          | none => exact .itemExhausted idx e rest _ hty (Or.inl hit) (ih idx)
          | some item =>
              dsimp only
              by_cases hemp : item = ""
              · rw [if_pos hemp]
                exact .itemExhausted idx e rest _ hty (Or.inr (hemp ▸ hit)) (ih idx)
              · rw [if_neg hemp]
                exact .item idx e rest _ item hty hit hemp (ih (idx + 1))
        · rw [if_neg hty]
          exact .chatResponse idx e rest _ hcr hty (ih idx)
      · rw [Bool.not_eq_true] at hcr
        by_cases hty : e.etype = EdgeType.Item
        · have c1 : ¬ ((!e.isChatResponse && decide (e.etype ≠ EdgeType.Item)) = true) := by
            simp [hty]
          rw [if_neg c1, if_pos hty]
          cases hit : items.get? idx with
          | none => exact .itemExhausted idx e rest _ hty (Or.inl hit) (ih idx)
          | some item =>
              dsimp only
              by_cases hemp : item = ""
              · rw [if_pos hemp]
                exact .itemExhausted idx e rest _ hty (Or.inr (hemp ▸ hit)) (ih idx)
              · rw [if_neg hemp]
                exact .item idx e rest _ item hty hit hemp (ih (idx + 1))
        · have c1 : (!e.isChatResponse && decide (e.etype ≠ EdgeType.Item)) = true := by
            simp [hcr, hty]
          rw [if_pos c1]
          exact .full idx e rest _ hcr hty (ih idx)

/-- C6 amended: `loadOutgoingEdges` on the JSON array `["a","b","c"]`
parses exactly the items `a`, `b`, `c` and distributes them positionally
to the item-typed outgoing edges in encounter order, rejecting every
item edge beyond the third; non-item edges that are not chat-response
edges receive the full content verbatim, while chat-response edges are
left untouched (the code excludes `ChatResponseEdge` instances from the
verbatim load — the only amendment to the claim). -/
theorem C6_list_distribution :
    CannoliNode.getListArrayFromContent "[\"a\",\"b\",\"c\"]" = ["a", "b", "c"] ∧
    ∀ (outgoingEdges : List CannoliEdgeState),
      DistributedEdges ["a", "b", "c"] "[\"a\",\"b\",\"c\"]" none 0 outgoingEdges
        (CannoliNode.loadOutgoingEdges "[\"a\",\"b\",\"c\"]" none outgoingEdges) := by
  have h : CannoliNode.getListArrayFromContent "[\"a\",\"b\",\"c\"]" = ["a", "b", "c"] := by
    decide
  refine ⟨h, fun outgoingEdges => ?_⟩
  rw [CannoliNode.loadOutgoingEdges, h]
  exact CannoliNode.loadOutgoingEdgesGo_distributes _ _ _ outgoingEdges 0

/-- C6 counterexample: among the outgoing edges of a list-producing node
given `["a","b","c"]`, a chat-response edge — which is a non-item edge —
does not receive the content (it is left with `content = none`), while
the claim states that every non-item outgoing edge receives the full
content verbatim. The item edge next to it is loaded with `"a"` as
expected. -/
theorem C6_counterexample_chat_response_edge_not_loaded :
    CannoliNode.loadOutgoingEdges "[\"a\",\"b\",\"c\"]" none
      [{ isReflexive := false, etype := EdgeType.ChatResponse, isChatResponse := true,
         text := "", addMessages := false, status := CannoliObjectStatus.Pending,
         content := none, messages := none },
       { isReflexive := false, etype := EdgeType.Item, isChatResponse := false,
         text := "", addMessages := false, status := CannoliObjectStatus.Pending,
         content := none, messages := none }] =
      [{ isReflexive := false, etype := EdgeType.ChatResponse, isChatResponse := true,
         text := "", addMessages := false, status := CannoliObjectStatus.Pending,
         content := none, messages := none },
       { isReflexive := false, etype := EdgeType.Item, isChatResponse := false,
         text := "", addMessages := false, status := CannoliObjectStatus.Pending,
         content := some "a", messages := none }] := by
  decide

/-- C7: a choice node with three outgoing choice edges texted `A`, `B`,
`C`, given a selection response whose parsed choice is `B`
(function-call arguments `{"choice": "B"}`), marks the `A` and `C`
edges Rejected and leaves `B` unrejected; `B` then proceeds to be loaded
by the base pass (with the raw argument string as content — as are the
rejected edges, whose status stays Rejected). -/
theorem C7_choice_node_rejects_unselected :
    ChooseNode.loadOutgoingEdges
      { messages :=
          [{ role := "assistant", content := "",
             functionCall := some ("choice", "\x7b\"choice\": \"B\"\x7d") }],
        fields := [] }
      [{ isReflexive := false, etype := EdgeType.Choice, isChatResponse := false,
         text := "A", addMessages := false, status := CannoliObjectStatus.Pending,
         content := none, messages := none },
       { isReflexive := false, etype := EdgeType.Choice, isChatResponse := false,
         text := "B", addMessages := false, status := CannoliObjectStatus.Pending,
         content := none, messages := none },
       { isReflexive := false, etype := EdgeType.Choice, isChatResponse := false,
         text := "C", addMessages := false, status := CannoliObjectStatus.Pending,
         content := none, messages := none }] =
    ChooseLoadResult.loaded
      [{ isReflexive := false, etype := EdgeType.Choice, isChatResponse := false,
         text := "A", addMessages := false, status := CannoliObjectStatus.Rejected,
         content := some "\x7b\"choice\": \"B\"\x7d", messages := none },
       { isReflexive := false, etype := EdgeType.Choice, isChatResponse := false,
         text := "B", addMessages := false, status := CannoliObjectStatus.Pending,
         content := some "\x7b\"choice\": \"B\"\x7d", messages := none },
       { isReflexive := false, etype := EdgeType.Choice, isChatResponse := false,
         text := "C", addMessages := false, status := CannoliObjectStatus.Rejected,
         content := some "\x7b\"choice\": \"B\"\x7d", messages := none }] := by
  decide

/-- C8 counterexample: a group labeled `abc` with no reserved prefix and
no reserved color, containing an ordinary (non-NonLogic) member, is
constructed successfully as a basic group — no configuration error is
reported and an executable graph object is produced, refuting the claim
that such a label must fail construction. -/
theorem C8_counterexample_abc_label_builds_basic_group :
    CannoliGroup.createTyped "g1" "abc" none [false] =
      Except.ok (some TypedGroup.basic) := by
  rfl

/-- C8 amended: a group labeled `abc` with no prefix or color indicator
falls through the type cascade — it becomes a silently-constructed basic
group when some member is not NonLogic, and is silently dropped (no
object, no error) when every member indicates NonLogic; a construction
error is reported only when a loop/list kind is otherwise indicated and
the remaining label fails to parse as an integer (e.g. the List prefix
`<` followed by `abc`), while a parseable label like `3` yields a repeat
group with that bound. -/
theorem C8_unparseable_label_outcomes :
    CannoliGroup.createTyped "g1" "abc" none [false, true] =
      Except.ok (some TypedGroup.basic) ∧
    CannoliGroup.createTyped "g2" "abc" none [true] = Except.ok none ∧
    CannoliGroup.createTyped "g3" "<abc" none [false] =
      Except.error "Error on object g3: list group must have a positive integer label." ∧
    CannoliGroup.createTyped "g4" "3" none [false] =
      Except.ok (some (TypedGroup.repeatGroup 3)) := by
  exact ⟨rfl, rfl, rfl, rfl⟩

/-- C10: loading a logging edge without a request always throws the
"Logging edge was loaded without a request" error, whatever content
argument is supplied and whatever state the edge is in — the error
propagates to the caller instead of rejecting the edge. -/
theorem C10_logging_edge_load_without_request_throws :
    ∀ (e : LoggingEdgeState) (content : Option String),
      LoggingEdge.load e content none =
        Except.error "Logging edge was loaded without a request, this should never happen" := by
  intro e content
  rfl

/-- C9 counterexample: with the format `#{{role}}:{{content}}`, parsing
`"hello #user: hi"` yields only the message tagged by the `#user:`
marker — the unlabeled leading text `hello` is discarded and never
becomes a default user message, contrary to the claim. -/
theorem C9_counterexample_leading_text_discarded :
    ChatConverterEdge.stringToArray "#\x7b\x7brole\x7d\x7d:\x7b\x7bcontent\x7d\x7d"
        "hello #user: hi" = [{ role := "user", content := "hi" }] ∧
    ChatConverterEdge.stringToArray "#\x7b\x7brole\x7d\x7d:\x7b\x7bcontent\x7d\x7d"
        "hello #user: hi" ≠
      [{ role := "user", content := "hello" }, { role := "user", content := "hi" }] := by
  constructor
  · rfl
  · decide

/-- C9 amended, for the format `#{{role}}:{{content}}`: when no role
marker matches anywhere in the input, the whole trimmed string becomes a
single user message; when markers do match, text before the first marker
is discarded (see the counterexample) and text after the last marker is
absorbed into that marker's message content rather than becoming an
additional trailing user message — the trailing-user branch is
unreachable because the last content always extends to the end of the
string. -/
theorem C9_role_marker_parsing :
    (∀ s : String,
      findMatchFrom "#".toList ":".toList s.toList 0 = none →
      ChatConverterEdge.stringToArray "#\x7b\x7brole\x7d\x7d:\x7b\x7bcontent\x7d\x7d" s =
        [{ role := "user", content := jsTrim s }]) ∧
    ChatConverterEdge.stringToArray "#\x7b\x7brole\x7d\x7d:\x7b\x7bcontent\x7d\x7d"
        "#assistant: ok\nmore" =
      [{ role := "assistant", content := "ok\nmore" }] := by
  constructor
  · intro s h
    have hsplit : splitOnFirstList altToken
        (ChatConverterEdge.rolePattern "#\x7b\x7brole\x7d\x7d:\x7b\x7bcontent\x7d\x7d") =
        some ("#".toList, ":".toList) := by decide
    have hall : allMatches "#".toList ":".toList s.toList = [] := by
      rw [allMatches, allMatchesGo, List.drop_zero, h]
    unfold ChatConverterEdge.stringToArray
    rw [hsplit]
    dsimp only
    rw [hall]
  · rfl

/-- C9 witness: a string containing no role marker parses to a single
user message holding the whole string. -/
theorem C9_role_marker_parsing_witness :
    ChatConverterEdge.stringToArray "#\x7b\x7brole\x7d\x7d:\x7b\x7bcontent\x7d\x7d"
        "no markers here" = [{ role := "user", content := "no markers here" }] :=
  C9_role_marker_parsing.1 "no markers here" (by decide)
